import Mathlib

/-!
Verification development for the spiderfire fetch pipeline, microtask
scheduler and file reader.

The Rust sources under `src/runtime/src/globals/fetch/{mod,scheme,body}.rs`,
`src/runtime/src/event_loop/microtasks.rs` and
`src/runtime/src/globals/file/reader.rs` are embedded shallowly:

* `http::HeaderMap` is an ordered multimap, embedded as a list of
  name/value pairs (header names are lowercase in `http`, so string
  equality matches its case-insensitive lookup);
* machine integers (`u8` redirect counters, `u16` ports, `usize` lengths)
  never approach their bounds in the embedded code paths and are embedded
  as `Nat`;
* external crates (the HTTP client, `url` parsing, `data-url` decoding,
  the filesystem, `headers::Range` parsing) are capabilities supplied in
  an `Env` record of functions, mirroring the spec's "external
  collaborators" boundary;
* `response.rs`, `request.rs` and `header.rs` of the fetch module are not
  part of the staged sources; the few items taken from them
  (`network_error`, the `Response` constructors, `FORBIDDEN_RESPONSE_HEADERS`,
  `remove_all_header_entries`) are modelled from the spec and marked so;
* bounded recursion (the 20-redirect cap, the single 421 retry, the
  microtask drain over finitely-spawning tasks) is embedded with an
  explicit structural fuel argument whose value at each entry point is
  exactly the measure the source's own guards bound; the fuel-exhausted
  branches are unreachable from the wrappers.

Names ending in the word that the `ResponseTaint::Opaque` and
`ResponseKind::Opaque` constructors use in Rust are written `opaqueTaint`
and `opaqueKind` here.
-/

/-! ## Header store (`http::HeaderMap` as used by the fetch module) -/

abbrev HeaderName := String

abbrev HeaderValue := String

/-- Ordered multimap of headers: `http::HeaderMap` keeps insertion order per
name and iterates entries in order; values for one name come back in append
order. -/
abbrev HeaderMap := List (HeaderName × HeaderValue)

/-- `HeaderMap::get_all(name)`: every value stored under `name`, in order. -/
def getAll (h : HeaderMap) (n : HeaderName) : List HeaderValue :=
  (h.filter (fun e => e.1 = n)).map (fun e => e.2)

/-- `HeaderMap::contains_key(name)`. -/
def containsKey (h : HeaderMap) (n : HeaderName) : Bool :=
  h.any (fun e => e.1 = n)

/-- `HeaderMap::append(name, value)`: adds after all existing entries. -/
def appendHeader (h : HeaderMap) (n : HeaderName) (v : HeaderValue) : HeaderMap :=
  h ++ [(n, v)]

/-- `remove_all_header_entries(&mut headers, name)`. Modelled from the spec:
`header.rs` is not among the staged sources; spec section 4.1 gives the
operation `remove_all(name)` on the ordered multimap. -/
def removeAllHeaderEntries (h : HeaderMap) (n : HeaderName) : HeaderMap :=
  h.filter (fun e => e.1 ≠ n)

/-- `HeaderMap::keys()`: each distinct name once, in first-appearance order. -/
def headerKeys (h : HeaderMap) : List HeaderName :=
  h.foldl (fun ks e => if ks.contains e.1 then ks else ks ++ [e.1]) []

def CONTENT_TYPE : HeaderName := "content-type"
def CONTENT_LENGTH : HeaderName := "content-length"
def CONTENT_RANGE : HeaderName := "content-range"
def CONTENT_ENCODING : HeaderName := "content-encoding"
def CONTENT_LANGUAGE : HeaderName := "content-language"
def CONTENT_LOCATION : HeaderName := "content-location"
def REFERER : HeaderName := "referer"
def USER_AGENT : HeaderName := "user-agent"
def IF_MODIFIED_SINCE : HeaderName := "if-modified-since"
def IF_NONE_MATCH : HeaderName := "if-none-match"
def IF_UNMODIFIED_SINCE : HeaderName := "if-unmodified-since"
def IF_MATCH : HeaderName := "if-match"
def IF_RANGE : HeaderName := "if-range"
def CACHE_CONTROL : HeaderName := "cache-control"
def PRAGMA : HeaderName := "pragma"
def RANGE : HeaderName := "range"
def ACCEPT_ENCODING : HeaderName := "accept-encoding"
def HOST : HeaderName := "host"
def LOCATION : HeaderName := "location"
def REFERRER_POLICY : HeaderName := "referrer-policy"
def ACCESS_CONTROL_ALLOW_HEADERS : HeaderName := "access-control-allow-headers"

/-- `FORBIDDEN_RESPONSE_HEADERS`. Modelled from the spec: `header.rs` is not
among the staged sources; spec section 6 fixes the forbidden-response-header
set as the `Set-Cookie` family (`Set-Cookie`, `Set-Cookie2`). -/
def FORBIDDEN_RESPONSE_HEADERS : List HeaderName := ["set-cookie", "set-cookie2"]

/-- The two `for name in &FORBIDDEN_RESPONSE_HEADERS { remove_all_header_entries(...) }`
loops of `main_fetch`. -/
def stripForbidden (h : HeaderMap) : HeaderMap :=
  FORBIDDEN_RESPONSE_HEADERS.foldl removeAllHeaderEntries h

/-! ## URLs, methods and the request/response data model -/

/-- The components of `url::Url` that the fetch module reads. `username()`
is `""` when absent, `password()` is an `Option`, exactly as in the `url`
crate. -/
structure Url where
  scheme : String
  username : String := ""
  password : Option String := none
  host : Option String := none
  port : Option Nat := none
  path : String := ""
  fragment : Option String := none
deriving DecidableEq, Repr

inductive Method where
  | get
  | head
  | post
  | put
  | connect
  | other (name : String)
deriving DecidableEq, Repr

inductive RequestMode where
  | sameOrigin
  | noCors
  | cors
deriving DecidableEq, Repr

inductive RequestCredentials where
  | omit
  | sameOrigin
  | include
deriving DecidableEq, Repr

inductive RequestCache where
  | default
  | noStore
  | reload
  | noCache
  | forceCache
  | onlyIfCached
deriving DecidableEq, Repr

inductive RequestRedirect where
  | follow
  | error
  | manual
deriving DecidableEq, Repr

/-- `Referrer`: `NoReferrer`, `Client`, or a concrete URL (the fetch module
only reads its serialized form, via `url.as_str()`). -/
inductive Referrer where
  | noReferrer
  | client
  | url (serialized : String)
deriving DecidableEq, Repr

/-- `ReferrerPolicy` values are only parsed (by `ReferrerPolicy::from_str`,
an external detail held in `Env`) and stored; the token itself suffices. -/
abbrev ReferrerPolicy := String

/-- `FetchBodyInner` from `body.rs`: `None` or buffered `Bytes`. Bytes are
embedded as lists of byte values. -/
inductive FetchBody where
  | noBody
  | bytes (data : List Nat)
deriving DecidableEq, Repr

/-- `FetchBody::default()`. -/
def FetchBody.default : FetchBody := FetchBody.noBody

/-- `FetchBody::is_none`. -/
def FetchBody.isNone : FetchBody → Bool
  | FetchBody.noBody => true
  | FetchBody.bytes _ => false

/-- `FetchBody::len`: `Some(len)` for buffered bytes, `None` otherwise. -/
def FetchBody.len : FetchBody → Option Nat
  | FetchBody.noBody => none
  | FetchBody.bytes data => some data.length

/-- `FetchBody::is_stream` from `body.rs`: false for both `None` and
`Bytes` (the only inner variants in the staged sources). -/
def FetchBody.isStream : FetchBody → Bool
  | _ => false

/-- `FetchBody::is_not_stream`, called by `mod.rs`. Modelled from the spec:
the method body is not among the staged sources; spec section 3 says only
buffered/none bodies may be retried or redirected, so it is the negation of
`is_stream`. -/
def FetchBody.isNotStream (b : FetchBody) : Bool := !b.isStream

inductive ResponseKind where
  | basic
  | cors
  | opaqueKind
  | opaqueRedirect
  | error
deriving DecidableEq, Repr

inductive ResponseTaint where
  | basic
  | cors
  | opaqueTaint
deriving DecidableEq, Repr

/-- `ResponseTaint::default()`. Modelled from the spec: `response.rs` is not
among the staged sources; spec sections 3 and 4.5 derive the taint as basic
for local schemes and for `no-cors`, and `main_fetch` only ever reassigns it
to `Cors`, so the default is `Basic`. -/
def ResponseTaint.default : ResponseTaint := ResponseTaint.basic

/-- The `Request` fields the fetch module reads or writes. The inner
`http::Request`'s header map is rebuilt from the `headers` store on every
network attempt, so only one header store is kept. -/
structure Request where
  method : Method
  url : Url
  headers : HeaderMap
  body : FetchBody
  mode : RequestMode
  credentials : RequestCredentials
  cache : RequestCache
  redirect : RequestRedirect
  referrer : Referrer
  referrerPolicy : ReferrerPolicy
  clientWindow : Bool
  locations : List Url
deriving DecidableEq, Repr

/-- The `Response` fields the fetch module reads or writes. The headers'
immutability tag (`HeadersKind`) is dropped: `main_fetch` edits the header
map through direct field access, never through the kind-checked API, and no
claim concerns the tag. -/
structure Response where
  kind : ResponseKind
  url : Option Url
  status : Option Nat
  statusText : Option String
  headers : HeaderMap
  body : Option (List Nat)
  redirected : Bool
  rangeRequested : Bool
deriving DecidableEq, Repr

/-- `network_error()`. Modelled from the spec: `response.rs` is not among
the staged sources; spec section 7 defines a network error as a terminal
`Response` with `kind = error` and section 3's invariant reads its status,
status text, URL, body as absent and its headers as empty. -/
def networkError : Response :=
  { kind := ResponseKind.error
    url := none
    status := none
    statusText := none
    headers := []
    body := none
    redirected := false
    rangeRequested := false }

/-- `Response::new_from_bytes(bytes, url)` (+ the headers installed right
after it). Modelled from the spec: `response.rs` is not among the staged
sources; spec section 4.4 says the scheme router synthesizes an immediate
200-equivalent response carrying the given bytes and headers. -/
def Response.newFromBytes (data : List Nat) (url : Url) (headers : HeaderMap) : Response :=
  { kind := ResponseKind.basic
    url := some url
    status := some 200
    statusText := some "OK"
    headers := headers
    body := some data
    redirected := false
    rangeRequested := false }

/-- What the transport capability yields: status, headers and a body. -/
structure RawResponse where
  status : Nat
  statusText : String
  headers : HeaderMap
  body : List Nat
deriving DecidableEq, Repr

/-- `Response::new(cx, response, url, headers)` over a transport response.
Modelled from the spec: `response.rs` is not among the staged sources; the
constructor records the transport's status/status text, the given URL and
the headers taken out of the transport response. -/
def Response.fromRaw (raw : RawResponse) (url : Url) : Response :=
  { kind := ResponseKind.basic
    url := some url
    status := some raw.status
    statusText := some raw.statusText
    headers := raw.headers
    body := some raw.body
    redirected := false
    rangeRequested := false }

/-- The request description handed to the transport capability
(`client.request(request.request)`): the per-attempt clone's method, URL,
normalized headers and body. -/
structure OutgoingRequest where
  method : Method
  url : Url
  headers : HeaderMap
  body : FetchBody
deriving DecidableEq, Repr

/-- The external collaborators of the fetch pipeline, as functions:
the HTTP client, `Url::options().base_url(b).parse(s)`,
`ReferrerPolicy::from_str(...).ok()`, `DataUrl::process(...)` together with
`decode_to_vec` (payload bytes and `type/subtype` string), and
`url.to_file_path()` together with `tokio::fs::read`. -/
structure Env where
  client : OutgoingRequest → Except Unit RawResponse
  parseUrl : Option Url → String → Option Url
  referrerPolicyFromStr : String → Option ReferrerPolicy
  processDataUrl : Url → Except Unit (List Nat × String)
  readFile : Url → Except Unit (List Nat)

/-! ## Byte-range serving (`scheme.rs`: `get_ranged_bytes`, `file_fetch`) -/

/-- A satisfiable range as produced by `headers::Range::satisfiable_ranges`:
either `(Bound::Included(start), Bound::Included(end))` or
`(Bound::Included(start), Bound::Unbounded)` — the only two shapes the crate
yields, which is why `get_ranged_bytes` marks the others `unreachable!()`. -/
inductive SatRange where
  | fromTo (start mfinish : Nat)
  | fromStart (start : Nat)
deriving DecidableEq, Repr

/-- `bytes.slice((start_bound, end_bound))` for the two shapes above:
an inclusive end keeps indices `start..=end`. -/
def sliceBytes (data : List Nat) : SatRange → List Nat
  | SatRange.fromTo s e => ((data.drop s).take (e + 1 - s))
  | SatRange.fromStart s => data.drop s

/-- The request's `Range` header as `headers.typed_try_get::<Range>()`
delivers it (an external crate): a parse error, an absent header, or a
parsed header exposing `satisfiable_ranges(len)`. -/
abbrev RangeHeaderParse := Except Unit (Option (Nat → List SatRange))

/-- `get_ranged_bytes(headers, bytes, response_headers)` from `scheme.rs`:
on success, the status code, the `range_requested` flag, the (possibly
sliced) bytes, and the headers pushed onto `response_headers`; a failure is
the network-error response to return. The `HeaderValue::from_str` on the
formatted range cannot fail on digits, so that `Err` branch is not
reachable and not modelled. -/
def getRangedBytes (rangeHeader : RangeHeaderParse) (data : List Nat) :
    Except Response (Nat × Bool × List Nat × HeaderMap) :=
  match rangeHeader with
  | Except.error _ => Except.error networkError
  | Except.ok none => Except.ok (200, false, data, [])
  | Except.ok (some satisfiableRanges) =>
    let len := data.length
    match (satisfiableRanges len).head? with
    | none => Except.error networkError
    | some r =>
      let data := sliceBytes data r
      let se : Nat × Nat :=
        match r with
        | SatRange.fromTo s e => (s, e)
        | SatRange.fromStart s => (s, len - 1)
      let value := toString se.1 ++ "-" ++ toString se.2 ++ "/" ++ toString len
      Except.ok (206, true, data, [(CONTENT_RANGE, value)])

/-- `file_fetch(cx, request, url)` from `scheme.rs`. The two failure points
`url.to_file_path()` and `tokio::fs::read` both yield a network error and
are collapsed into the single `Env`-style capability `fileRead`; the
request's parsed `Range` header arrives as `rangeHeader`. -/
def fileFetch (method : Method) (rangeHeader : RangeHeaderParse)
    (fileRead : Except Unit (List Nat)) (url : Url) : Response :=
  if method ≠ Method.get then networkError
  else
    match fileRead with
    | Except.error _ => networkError
    | Except.ok data =>
      match getRangedBytes rangeHeader data with
      | Except.error err => err
      | Except.ok (status, rangeRequested, data, responseHeaders) =>
        let responseHeaders := responseHeaders ++ [(CONTENT_LENGTH, toString data.length)]
        { Response.newFromBytes data url responseHeaders with
            status := some status
            rangeRequested := rangeRequested }

/-! ## Microtask scheduler (`event_loop/microtasks.rs`) -/

/-- A microtask, abstracted to what `Microtask::run` can observably do to
the queue and to `run_jobs`: it carries an identity (for stating ordering),
the error it reports (`Err` from `Microtask::run`), and the tasks it
enqueues while running. A task enqueues its spawns and then reports its
result; spawning is finite, which is exactly the class of task programs on
which the source's drain loop terminates. -/
inductive MTask where
  | mk (id : Nat) (err : Option Nat) (spawns : List MTask)
deriving Repr

def MTask.id : MTask → Nat
  | MTask.mk i _ _ => i

mutual

def taskSize : MTask → Nat
  | MTask.mk _ _ spawns => 1 + tasksSize spawns

def tasksSize : List MTask → Nat
  | [] => 0
  | t :: ts => taskSize t + tasksSize ts

end

mutual

/-- Whether a task and everything it transitively spawns run without error. -/
def errorFree : MTask → Bool
  | MTask.mk _ err spawns => err.isNone && errorFreeList spawns

def errorFreeList : List MTask → Bool
  | [] => true
  | t :: ts => errorFree t && errorFreeList ts

end

mutual

/-- The ids of a task and of everything it transitively spawns. -/
def taskIds : MTask → List Nat
  | MTask.mk i _ spawns => i :: taskIdsList spawns

def taskIdsList : List MTask → List Nat
  | [] => []
  | t :: ts => taskIds t ++ taskIdsList ts

end

/-- `MicrotaskQueue`: the FIFO queue plus the `draining` re-entrancy flag.
The `JobQueueMayNotBeEmpty`/`JobQueueIsEmpty` host notifications carry no
observable state and are not modelled. -/
structure MicrotaskQueue where
  queue : List MTask
  draining : Bool
deriving Repr

/-- `MicrotaskQueue::enqueue`: push at the tail. -/
def enqueue (st : MicrotaskQueue) (t : MTask) : MicrotaskQueue :=
  { st with queue := st.queue ++ [t] }

/-- The `while let Some(microtask) = self.queue.pop_front()` loop of
`run_jobs`, with structural fuel (the wrapper passes `tasksSize`, which is
exactly the number of iterations; the fuel-0 branch is unreachable from
it). Returns the queue left behind, the ids run in order, and the result of
`microtask.run(cx)?`: the first error aborts the loop at once, leaving the
rest of the queue in place, because of the `?` operator. A running task's
spawns are appended at the tail (each spawn is an `enqueue` during the
drain) before its result is inspected. -/
def runJobsLoopAux : Nat → List MTask → List MTask × List Nat × Option Nat
  | 0, q => (q, [], none)
  | Nat.succ n, q =>
    match q with
    | [] => ([], [], none)
    | MTask.mk i err spawns :: rest =>
      let q' := rest ++ spawns
      match err with
      | some e => (q', [i], some e)
      | none =>
        let r := runJobsLoopAux n q'
        (r.1, i :: r.2.1, r.2.2)

def runJobsLoop (q : List MTask) : List MTask × List Nat × Option Nat :=
  runJobsLoopAux (tasksSize q) q

/-- `MicrotaskQueue::run_jobs`: returns the queue state after the call, the
ids of the tasks that ran in order, and the `Result` (`none` = `Ok(())`).
If `draining` is already set the call returns `Ok(())` at once. Otherwise
`draining` is set and the loop runs; on `Ok` the loop emptied the queue and
`draining` is cleared, while the `?` on a task error returns from
`run_jobs` immediately — before the `self.draining = false` statement — so
the flag stays set and the remaining tasks stay queued. -/
def runJobs (st : MicrotaskQueue) : MicrotaskQueue × List Nat × Option Nat :=
  if st.draining then (st, [], none)
  else
    let r := runJobsLoop st.queue
    match r.2.2 with
    | some e => ({ queue := r.1, draining := true }, r.2.1, some e)
    | none => ({ queue := r.1, draining := false }, r.2.1, none)

/-- `MicrotaskQueue::is_empty`. -/
def MicrotaskQueue.isEmpty (st : MicrotaskQueue) : Bool :=
  st.queue.isEmpty

/-- The order the spec promises (sections 4.2 and 8): strict FIFO order of
enqueue, where a running task's spawns are enqueued at the tail during the
drain. Stated from the spec's words, to be compared with what `run_jobs`
does. Structural fuel as for the loop itself. -/
def specFifoOrderAux : Nat → List MTask → List Nat
  | 0, _ => []
  | Nat.succ n, q =>
    match q with
    | [] => []
    | MTask.mk i _ spawns :: rest => i :: specFifoOrderAux n (rest ++ spawns)

def specFifoOrder (q : List MTask) : List Nat :=
  specFifoOrderAux (tasksSize q) q

/-! ## FileReader (`globals/file/reader.rs`) -/

inductive FileReaderState where
  | empty
  | loading
  | done
deriving DecidableEq, Repr

/-- `FileReaderState::validate`: fails when already `Loading`, otherwise
moves the state to `Loading` (the returned state is the mutated `*self`). -/
def FileReaderState.validate : FileReaderState → Except String FileReaderState
  | FileReaderState.loading => Except.error "Invalid State for File Reader"
  | _ => Except.ok FileReaderState.loading

/-- The `result` slot of a `FileReader`: null until a read completes, then
the value the completing future computed (buffer, latin-1 byte string,
decoded text, or data URL — the payload computations are external
`base64`/`encoding_rs` work and irrelevant to the state machine). -/
inductive FileReaderResult where
  | nullValue
  | arrayBuffer (data : List Nat)
  | binaryString (data : List Nat)
  | text (s : String)
  | dataUrl (s : String)
deriving DecidableEq, Repr

/-- The `FileReader` fields the claims concern (`reflector` and `error` are
host-object plumbing). -/
structure FileReader where
  state : FileReaderState
  result : FileReaderResult
deriving DecidableEq, Repr

/-- `FileReader::default()`. -/
def FileReader.default : FileReader :=
  { state := FileReaderState.empty, result := FileReaderResult.nullValue }

/-- `FileReader::read_as_array_buffer`, synchronous part: validate (which
sets `Loading`); the spawned future is modelled by `completeArrayBuffer`. -/
def readAsArrayBuffer (r : FileReader) : Except String FileReader :=
  match r.state.validate with
  | Except.error e => Except.error e
  | Except.ok s => Except.ok { r with state := s }

/-- `FileReader::read_as_binary_string`, synchronous part. -/
def readAsBinaryString (r : FileReader) : Except String FileReader :=
  match r.state.validate with
  | Except.error e => Except.error e
  | Except.ok s => Except.ok { r with state := s }

/-- `FileReader::read_as_text`, synchronous part (the optional encoding
argument only affects the completion value). -/
def readAsText (r : FileReader) : Except String FileReader :=
  match r.state.validate with
  | Except.error e => Except.error e
  | Except.ok s => Except.ok { r with state := s }

/-- `FileReader::read_as_data_url`, synchronous part. -/
def readAsDataUrl (r : FileReader) : Except String FileReader :=
  match r.state.validate with
  | Except.error e => Except.error e
  | Except.ok s => Except.ok { r with state := s }

/-- The future spawned by `read_as_array_buffer`: `reader.result.set(...)`
and nothing else — in particular it never writes `state`. -/
def completeArrayBuffer (r : FileReader) (data : List Nat) : FileReader :=
  { r with result := FileReaderResult.arrayBuffer data }

/-- The future spawned by `read_as_binary_string`. -/
def completeBinaryString (r : FileReader) (data : List Nat) : FileReader :=
  { r with result := FileReaderResult.binaryString data }

/-- The future spawned by `read_as_text`. -/
def completeText (r : FileReader) (s : String) : FileReader :=
  { r with result := FileReaderResult.text s }

/-- The future spawned by `read_as_data_url`. -/
def completeDataUrl (r : FileReader) (s : String) : FileReader :=
  { r with result := FileReaderResult.dataUrl s }

/-- Every operation the embedded `FileReader` API exposes, for stating
reachability of states: the four `readAs*` entry points (a failed call
leaves the reader as it was — the error propagates to the script) and the
four completions. -/
inductive FileReaderOp where
  | startArrayBuffer
  | startBinaryString
  | startText
  | startDataUrl
  | finishArrayBuffer (data : List Nat)
  | finishBinaryString (data : List Nat)
  | finishText (s : String)
  | finishDataUrl (s : String)
deriving DecidableEq, Repr

def fileReaderStep (r : FileReader) : FileReaderOp → FileReader
  | FileReaderOp.startArrayBuffer => (readAsArrayBuffer r).toOption.getD r
  | FileReaderOp.startBinaryString => (readAsBinaryString r).toOption.getD r
  | FileReaderOp.startText => (readAsText r).toOption.getD r
  | FileReaderOp.startDataUrl => (readAsDataUrl r).toOption.getD r
  | FileReaderOp.finishArrayBuffer data => completeArrayBuffer r data
  | FileReaderOp.finishBinaryString data => completeBinaryString r data
  | FileReaderOp.finishText s => completeText r s
  | FileReaderOp.finishDataUrl s => completeDataUrl r s

def fileReaderRun (ops : List FileReaderOp) : FileReader :=
  ops.foldl fileReaderStep FileReader.default

/-! ## The fetch pipeline (`fetch/mod.rs`) -/

/-- `VERSION` is the crate version baked in at build time
(`env!("CARGO_PKG_VERSION")`); its value never matters here. -/
def VERSION : String := "0.1.0"

def DEFAULT_USER_AGENT : String := "Spiderfire/" ++ VERSION

/-- The `BAD_PORTS` table, verbatim. -/
def BAD_PORTS : List Nat :=
  [1, 7, 9, 11, 13, 15, 17, 19, 20, 21, 22, 23, 25, 37, 42, 43, 53, 69, 77,
   79, 87, 95, 101, 102, 103, 104, 109, 110, 111, 113, 115, 117, 119, 123,
   135, 137, 139, 143, 161, 179, 389, 427, 465, 512, 513, 514, 515, 526,
   530, 531, 532, 540, 548, 554, 556, 563, 587, 601, 636, 989, 990, 993,
   995, 1719, 1720, 1723, 2049, 3659, 4045, 5060, 5061, 6000, 6566, 6665,
   6666, 6667, 6668, 6669, 6697, 10080]

/-- The `SCHEMES` table (the non-network schemes `main_fetch` routes to
`scheme_fetch`). -/
def SCHEMES : List String := ["about", "blob", "data", "file"]

/-- `StatusCode::is_redirection()`. -/
def isRedirection (status : Nat) : Bool :=
  300 ≤ status && status ≤ 399

/-- The outgoing-request normalization block of `http_network_fetch`
(lines 408–471 of `mod.rs`): starting from the per-attempt clone built by
`req.clone()` — whose header map is overwritten with the caller's header
store — it appends `Content-Length`, `Referer`, the default `User-Agent`,
the cache directives, `Accept-Encoding: identity` for ranged requests and
`Host`, and rewrites the clone's cache mode to `no-store` when a
conditional header is present. Returns the clone's final header map and
cache mode; the caller's `req` is only read. -/
def normalizeOutgoing (req : Request) : HeaderMap × RequestCache :=
    let outHeaders := req.headers
    -- Content-Length: the body's length, or 0 for a bodiless POST/PUT.
    let length :=
      match req.body.len with
      | some l => some l
      | none =>
        if req.body.isNone && (req.method = Method.post || req.method = Method.put)
        then some 0 else none
    let outHeaders :=
      match length with
      | some l => appendHeader outHeaders CONTENT_LENGTH (toString l)
      | none => outHeaders
    -- Referer for a concrete referrer URL.
    let outHeaders :=
      match req.referrer with
      | Referrer.url serialized => appendHeader outHeaders REFERER serialized
      | _ => outHeaders
    -- Default User-Agent.
    let outHeaders :=
      if !containsKey outHeaders USER_AGENT
      then appendHeader outHeaders USER_AGENT DEFAULT_USER_AGENT
      else outHeaders
    -- Conditional headers force cache = no-store (on the clone).
    let cache :=
      if req.cache = RequestCache.default
          && (containsKey outHeaders IF_MODIFIED_SINCE
            || containsKey outHeaders IF_NONE_MATCH
            || containsKey outHeaders IF_UNMODIFIED_SINCE
            || containsKey outHeaders IF_MATCH
            || containsKey outHeaders IF_RANGE)
      then RequestCache.noStore
      else req.cache
    let outHeaders :=
      if cache = RequestCache.noCache && !containsKey outHeaders CACHE_CONTROL
      then appendHeader outHeaders CACHE_CONTROL "max-age=0"
      else outHeaders
    let outHeaders :=
      if cache = RequestCache.noStore || cache = RequestCache.reload then
        let outHeaders :=
          if !containsKey outHeaders PRAGMA
          then appendHeader outHeaders PRAGMA "no-cache"
          else outHeaders
        if !containsKey outHeaders CACHE_CONTROL
        then appendHeader outHeaders CACHE_CONTROL "no-cache"
        else outHeaders
      else outHeaders
    -- Ranged requests must not be compressed.
    let outHeaders :=
      if containsKey outHeaders RANGE
      then appendHeader outHeaders ACCEPT_ENCODING "identity"
      else outHeaders
    -- Host (the source unwraps `host_str()`, present for http(s) URLs).
    let outHeaders :=
      if !containsKey outHeaders HOST then
        let host :=
          match req.url.host with
          | some h =>
            match req.url.port with
            | some p => h ++ ":" ++ toString p
            | none => h
          | none => ""
        appendHeader outHeaders HOST host
      else outHeaders
    (outHeaders, cache)

/-- `http_network_fetch(cx, req, client, is_new)`, with structural fuel for
the single 421 retry (the wrapper passes fuel 2 when `is_new` is false and
1 when it is true; the retry branch requires `!is_new`, so fuel 0 is never
reached from the wrapper). The normalization writes to the per-attempt
clone only (`normalizeOutgoing`); the first component of the result is the
caller's `req`, returned exactly as every `return` path of the source
leaves it. -/
def httpNetworkFetchAux : Nat → Env → Request → Bool → Request × Response
  | 0, _, req, _ => (req, networkError)
  | Nat.succ n, env, req, isNew =>
    let norm := normalizeOutgoing req
    if norm.2 = RequestCache.onlyIfCached then (req, networkError)
    else
      let rangeRequested := containsKey norm.1 RANGE
      match env.client
          { method := req.method, url := req.url, headers := norm.1, body := req.body } with
      | Except.error _ => (req, networkError)
      | Except.ok raw =>
        let response := Response.fromRaw raw req.url
        let response := { response with rangeRequested := rangeRequested }
        -- 407 without a client window context.
        if response.status = some 407 && !req.clientWindow then (req, networkError)
        -- One retry on 421 Misdirected Request with a replayable body.
        else if response.status = some 421 && !isNew && req.body.isNotStream then
          httpNetworkFetchAux n env req true
        else (req, response)

def httpNetworkFetch (env : Env) (req : Request) (isNew : Bool) : Request × Response :=
  httpNetworkFetchAux (if isNew then 1 else 2) env req isNew

/-- `scheme_fetch(cx, scheme, url)` as defined in `mod.rs` (the `blob`
scheme falls through to the network-error arm there). The two failure
points of the `data` arm (`DataUrl::process` and `decode_to_vec`) yield the
same network error and arrive collapsed through the capability. -/
def schemeFetch (env : Env) (scheme : String) (url : Url) : Response :=
  if scheme = "about" && url.path = "blank" then
    Response.newFromBytes [] url [(CONTENT_TYPE, "text/html;charset=UTF-8")]
  else if scheme = "data" then
    match env.processDataUrl url with
    | Except.ok (body, mime) => Response.newFromBytes body url [(CONTENT_TYPE, mime)]
    | Except.error _ => networkError
  else if scheme = "file" then
    match env.readFile url with
    | Except.ok data => Response.newFromBytes data url []
    | Except.error _ => networkError
  else networkError

/-- The `ResponseTaint::Cors` arm of `main_fetch`'s final filtering,
verbatim: collect the `Access-Control-Allow-Headers` values (noting a
literal `*`); when credentials is not `include` and `*` was seen, mark for
removal every name whose value iterator has no upper size bound — in
`http::HeaderMap` that means the name has two or more values; otherwise
mark for removal every name that appears among the allow-list values; then
remove the marked names and the forbidden response headers. -/
def corsFilterHeaders (credentials : RequestCredentials) (h : HeaderMap) : HeaderMap :=
  let allowed := getAll h ACCESS_CONTROL_ALLOW_HEADERS
  let allowsAll := allowed.any (fun v => v = "*")
  let toRemove :=
    if credentials ≠ RequestCredentials.include && allowsAll then
      (headerKeys h).filter (fun name => decide (2 ≤ (getAll h name).length))
    else
      (headerKeys h).filter (fun name => allowed.any (fun a => a = name))
  stripForbidden (toRemove.foldl removeAllHeaderEntries h)

/-- Lines 237–337 of `main_fetch`: everything after the dispatch block.
`req` is the request as the dispatch left it (redirect hops rewrite it),
`redirections` the counter of this invocation, `taint` and
`opaqueRedirect` the dispatch's results, `response` the response to
post-process. -/
def mainFetchTail (req : Request) (redirections : Nat) (taint : ResponseTaint)
    (opaqueRedirect : Bool) (response : Response) : Request × Response :=
  let redirected := decide (0 < redirections)
  if redirected || response.kind = ResponseKind.error then
    (req, { response with redirected := redirected })
  else
    -- response.url.get_or_insert(request.url.clone())
    let response :=
      { response with url := match response.url with | some u => some u | none => some req.url }
    -- The range-reuse guard: on its path the response URL (just backfilled,
    -- so present) is taken out and planted on the network error.
    if !opaqueRedirect && taint = ResponseTaint.opaqueTaint
        && response.status = some 206 && response.rangeRequested
        && !containsKey response.headers RANGE then
      (req, { networkError with url := response.url })
    else
      -- Body nulling for HEAD/CONNECT and 101/103/204/205/304.
      let response :=
        if !opaqueRedirect
            && (req.method = Method.head || req.method = Method.connect
              || response.status = some 101 || response.status = some 103
              || response.status = some 204 || response.status = some 205
              || response.status = some 304)
        then { response with body := none }
        else response
      if opaqueRedirect then
        (req, { response with
            kind := ResponseKind.opaqueRedirect
            url := none, status := none, statusText := none, body := none
            headers := [] })
      else
        match taint with
        | ResponseTaint.basic =>
          (req, { response with
              kind := ResponseKind.basic
              headers := stripForbidden response.headers })
        | ResponseTaint.cors =>
          (req, { response with
              kind := ResponseKind.cors
              headers := corsFilterHeaders req.credentials response.headers })
        | ResponseTaint.opaqueTaint =>
          (req, { response with
              kind := ResponseKind.opaqueKind
              url := none, status := none, statusText := none, body := none
              headers := [] })

/-- `http_redirect_fetch(cx, request, response, client, taint, redirections)`
with the recursive `main_fetch` entry abstracted as `mf` (the tied-off
wrapper below passes `mainFetch`). Returns the request as the call leaves
it together with the response. -/
def httpRedirectFetchWith (mf : Env → Request → Nat → Request × Response)
    (env : Env) (req : Request) (response : Response) (taint : ResponseTaint)
    (redirections : Nat) : Request × Response :=
  -- `Location` occurrences: none → the response is final; two or more
  -- (upper size-hint `None`) → network error; exactly one → resolve it.
  match getAll response.headers LOCATION with
  | [] => (req, response)
  | [loc] =>
    match env.parseUrl response.url loc with
    | none => (req, networkError)
    | some parsed =>
      -- Fragment carry-over from the response URL.
      let location :=
        if parsed.fragment = none
        then { parsed with fragment := response.url.bind Url.fragment }
        else parsed
      if !(location.scheme = "https" || location.scheme = "http") then (req, networkError)
      else if 20 ≤ redirections then (req, networkError)
      else if taint = ResponseTaint.cors
          && (location.username ≠ "" || location.password ≠ none) then (req, networkError)
      else if response.status ≠ some 303 && !req.body.isNone && !req.body.isNotStream then
        (req, networkError)
      else
        -- Method/body downgrade. The source's condition on 303 is
        -- `method != GET || method != HEAD`, embedded verbatim.
        let req :=
          if ((response.status = some 301 || response.status = some 302)
                && req.method = Method.post)
              || (response.status = some 303
                && (req.method ≠ Method.get || req.method ≠ Method.head)) then
            { req with
                method := Method.get
                body := FetchBody.default
                headers :=
                  removeAllHeaderEntries
                    (removeAllHeaderEntries
                      (removeAllHeaderEntries
                        (removeAllHeaderEntries req.headers CONTENT_ENCODING)
                        CONTENT_LANGUAGE)
                      CONTENT_LOCATION)
                    CONTENT_TYPE }
          else req
        let req := { req with locations := req.locations ++ [location], url := location }
        -- Referrer-policy update: last non-empty parseable value wins.
        let policy :=
          (((getAll response.headers REFERRER_POLICY).reverse).filter
            (fun v => !v.isEmpty)).findSome? env.referrerPolicyFromStr
        let req :=
          match policy with
          | some p => { req with referrerPolicy := p }
          | none => req
        mf env req (redirections + 1)
  | _ :: _ :: _ => (req, networkError)

/-- `http_fetch(cx, request, client, taint, redirections)` with the
recursive `main_fetch` entry abstracted as `mf`. The third component is
the opaque-redirect flag `main_fetch` receives back. -/
def httpFetchWith (mf : Env → Request → Nat → Request × Response)
    (env : Env) (req : Request) (taint : ResponseTaint) (redirections : Nat) :
    Request × Response × Bool :=
  let r := httpNetworkFetch env req false
  let req := r.1
  let response := r.2
  match response.status with
  | some status =>
    if isRedirection status then
      match req.redirect with
      | RequestRedirect.follow =>
        let rr := httpRedirectFetchWith mf env req response taint redirections
        (rr.1, rr.2, false)
      | RequestRedirect.error => (req, networkError, false)
      | RequestRedirect.manual => (req, response, true)
    else (req, response, false)
  | none => (req, response, false)

/-- `main_fetch(cx, request, client, redirections)` with structural fuel:
the wrapper passes `21 - redirections`, and the one recursive entry (a
redirect hop) is guarded by `redirections < 20` and passes
`redirections + 1`, so the fuel at that entry is again exactly
`21 - redirections` and the fuel-0 branch is unreachable from the wrapper.
The dispatch block is lines 204–235 of `mod.rs`; the `return` statements
inside it (bad port, `no-cors` with a non-follow redirect mode) leave
`main_fetch` without post-processing, while the same-origin, scheme and
default arms flow their response into the tail. -/
def mainFetchAux : Nat → Env → Request → Nat → Request × Response
  | 0, _, req, _ => (req, networkError)
  | Nat.succ n, env, req, redirections =>
    let scheme := req.url.scheme
    if req.mode = RequestMode.sameOrigin then
      mainFetchTail req redirections ResponseTaint.default false networkError
    else if SCHEMES.contains scheme then
      mainFetchTail req redirections ResponseTaint.default false
        (schemeFetch env scheme req.url)
    else if scheme = "https" || scheme = "http" then
      if (match req.url.port with
          | some port => BAD_PORTS.contains port
          | none => false) then
        (req, networkError)
      else if req.mode = RequestMode.noCors && req.redirect ≠ RequestRedirect.follow then
        (req, networkError)
      else
        let taint :=
          if req.mode = RequestMode.noCors then ResponseTaint.default
          else ResponseTaint.cors
        let r := httpFetchWith (mainFetchAux n) env req taint redirections
        mainFetchTail r.1 redirections taint r.2.2 r.2.1
    else
      mainFetchTail req redirections ResponseTaint.default false networkError

def mainFetch (env : Env) (req : Request) (redirections : Nat) : Request × Response :=
  mainFetchAux (21 - redirections) env req redirections

/-- `http_fetch` tied off with the real `main_fetch`. -/
def httpFetch (env : Env) (req : Request) (taint : ResponseTaint)
    (redirections : Nat) : Request × Response × Bool :=
  httpFetchWith mainFetch env req taint redirections

/-- `http_redirect_fetch` tied off with the real `main_fetch`. -/
def httpRedirectFetch (env : Env) (req : Request) (response : Response)
    (taint : ResponseTaint) (redirections : Nat) : Request × Response :=
  httpRedirectFetchWith mainFetch env req response taint redirections

/-- What `fetch_internal` can reject with: the abort reason (an arbitrary
script value, carried opaquely), or the `TypeError` built from the final
request URL (`"Network Error: Failed to fetch from {url}"` — the exact
rendering of the URL is external `Display` work and the URL itself is
carried instead). -/
inductive FetchErr where
  | aborted (reason : String)
  | networkFailure (url : Url)
deriving DecidableEq, Repr

/-- `fetch_internal(cx, request, client)`: the `select` between the fetch
future and the abort signal is embedded by its outcome, `abortedFirst`:
`some reason` means the signal's future resolved first (with that reason),
`none` means the fetch future resolved first. An error-kind response
becomes the network-failure rejection; otherwise the response object is
returned. -/
def fetchInternal (env : Env) (req : Request) (abortedFirst : Option String) :
    Except FetchErr Response :=
  match abortedFirst with
  | some reason => Except.error (FetchErr.aborted reason)
  | none =>
    let r := mainFetch env req 0
    if r.2.kind = ResponseKind.error then
      Except.error (FetchErr.networkFailure r.1.url)
    else
      Except.ok r.2

/-! ## Concrete instances used by the claim theorems and witnesses -/

/-- A CORS-mode GET request to a plain http URL (claim C1). -/
def reqC1 : Request :=
  { method := Method.get
    url := { scheme := "http", host := some "example.test", path := "/" }
    headers := []
    body := FetchBody.noBody
    mode := RequestMode.cors
    credentials := RequestCredentials.omit
    cache := RequestCache.default
    redirect := RequestRedirect.follow
    referrer := Referrer.noReferrer
    referrerPolicy := ""
    clientWindow := true
    locations := [] }

/-- A 200 transport response whose `Access-Control-Allow-Headers` names
`x-foo` and which carries the headers `x-foo` and `x-bar` (claim C1). -/
def rawC1 : RawResponse :=
  { status := 200
    statusText := "OK"
    headers := [(ACCESS_CONTROL_ALLOW_HEADERS, "x-foo"), ("x-foo", "1"), ("x-bar", "2")]
    body := [] }

def envC1 : Env :=
  { client := fun _ => Except.ok rawC1
    parseUrl := fun _ _ => none
    referrerPolicyFromStr := fun _ => none
    processDataUrl := fun _ => Except.error ()
    readFile := fun _ => Except.error () }

/-- A GET request with a buffered body and a `Content-Type` header; its
mode makes the recursive `main_fetch` hop after the redirect trivial
(claim C3). -/
def reqC3 : Request :=
  { method := Method.get
    url := { scheme := "http", host := some "a.test", path := "/" }
    headers := [(CONTENT_TYPE, "text/plain")]
    body := FetchBody.bytes [1, 2, 3]
    mode := RequestMode.sameOrigin
    credentials := RequestCredentials.omit
    cache := RequestCache.default
    redirect := RequestRedirect.follow
    referrer := Referrer.noReferrer
    referrerPolicy := ""
    clientWindow := true
    locations := [] }

def urlC3 : Url := { scheme := "http", host := some "b.test", path := "/next" }

/-- A `303 See Other` response carrying one `Location` header (claim C3). -/
def respC3 : Response :=
  { kind := ResponseKind.basic
    url := some reqC3.url
    status := some 303
    statusText := some "See Other"
    headers := [(LOCATION, "http://b.test/next")]
    body := none
    redirected := false
    rangeRequested := false }

def envC3 : Env :=
  { client := fun _ => Except.error ()
    parseUrl := fun _ _ => some urlC3
    referrerPolicyFromStr := fun _ => none
    processDataUrl := fun _ => Except.error ()
    readFile := fun _ => Except.error () }

def reqC4 : Request :=
  { method := Method.get
    url := { scheme := "http", host := some "a.test", path := "/" }
    headers := []
    body := FetchBody.noBody
    mode := RequestMode.cors
    credentials := RequestCredentials.omit
    cache := RequestCache.default
    redirect := RequestRedirect.follow
    referrer := Referrer.noReferrer
    referrerPolicy := ""
    clientWindow := true
    locations := [] }

def urlC4 : Url := { scheme := "http", host := some "b.test", path := "/hop" }

/-- A `302 Found` response carrying one resolvable http `Location`
(claim C4's witness). -/
def respC4 : Response :=
  { kind := ResponseKind.basic
    url := some reqC4.url
    status := some 302
    statusText := some "Found"
    headers := [(LOCATION, "http://b.test/hop")]
    body := none
    redirected := false
    rangeRequested := false }

def envC4 : Env :=
  { client := fun _ => Except.error ()
    parseUrl := fun _ _ => some urlC4
    referrerPolicyFromStr := fun _ => none
    processDataUrl := fun _ => Except.error ()
    readFile := fun _ => Except.error () }

/-- A stand-in `main_fetch` continuation for claim C4's witness: at the cap
the result may not depend on it. -/
def mfC4 : Env → Request → Nat → Request × Response :=
  fun _ req _ => (req, networkError)

/-- Ten distinguishable bytes (claim C5). -/
def bytesC5 : List Nat := [10, 11, 12, 13, 14, 15, 16, 17, 18, 19]

/-- A GET file fetch of a 10-byte file whose `Range: bytes=0-4` header has
the single satisfiable range `0..=4` (claim C5). -/
def respC5 : Response :=
  fileFetch Method.get (Except.ok (some (fun _ => [SatRange.fromTo 0 4])))
    (Except.ok bytesC5) { scheme := "file", path := "/ten-bytes" }

/-- A request whose scheme no arm of `main_fetch` handles (claim C6's
witness reaches the network-error path with it). -/
def reqC6 : Request :=
  { method := Method.get
    url := { scheme := "gopher", host := some "g.test", path := "/" }
    headers := []
    body := FetchBody.noBody
    mode := RequestMode.cors
    credentials := RequestCredentials.omit
    cache := RequestCache.default
    redirect := RequestRedirect.follow
    referrer := Referrer.noReferrer
    referrerPolicy := ""
    clientWindow := true
    locations := [] }

def envC6 : Env :=
  { client := fun _ => Except.error ()
    parseUrl := fun _ _ => none
    referrerPolicyFromStr := fun _ => none
    processDataUrl := fun _ => Except.error ()
    readFile := fun _ => Except.error () }

/-- A queue whose head task errors after spawning a task, then nothing else
(claim C7's counterexample). -/
def stC7 : MicrotaskQueue :=
  { queue := [MTask.mk 0 (some 5) [MTask.mk 1 none []]], draining := false }

/-- A queue whose head task spawns a task mid-drain and nothing errors
(claim C7's witness). -/
def stC7w : MicrotaskQueue :=
  { queue := [MTask.mk 0 none [MTask.mk 2 none []], MTask.mk 1 none []], draining := false }

/-- The spec's invariant on error responses (section 3): once
`kind == error`, status, status text, URL and body read as absent and the
header store as empty. -/
def errorReadsAbsent (resp : Response) : Prop :=
  resp.kind = ResponseKind.error →
    resp.status = none ∧ resp.statusText = none ∧ resp.url = none
    ∧ resp.body = none ∧ resp.headers = []

/-! ## Claim theorems -/

set_option maxRecDepth 4000

/-- C1: evaluation at the failing input. For a top-level CORS-tainted fetch
that completes with a 200 response carrying
`Access-Control-Allow-Headers: x-foo` plus the headers `x-foo` and `x-bar`
(credentials not `include`, no `*`), `main_fetch` strips the allow-listed
`x-foo` and retains the non-allow-listed `x-bar`: the filter removes
exactly the headers the claim says it retains. -/
theorem c1_cors_filter_inverted_eval :
    (mainFetch envC1 reqC1 0).2.kind = ResponseKind.cors
    ∧ (mainFetch envC1 reqC1 0).2.headers
        = [(ACCESS_CONTROL_ALLOW_HEADERS, "x-foo"), ("x-bar", "2")]
    ∧ containsKey (mainFetch envC1 reqC1 0).2.headers "x-foo" = false
    ∧ containsKey (mainFetch envC1 reqC1 0).2.headers "x-bar" = true := by
  exact ⟨by decide, by decide, by decide, by decide⟩

/-- C2: evaluation at the failing input. With the queue
`[task 0 (throws 7), task 1]` and `draining` clear, `run_jobs` runs only
task 0 and returns its error at once: task 1 is still queued and the
`draining` flag is left set (so later `run_jobs` calls return immediately),
where the claim says every remaining task runs, the flag is cleared, and
only then the first error is returned. -/
theorem c2_run_jobs_error_aborts_drain_eval :
    runJobs { queue := [MTask.mk 0 (some 7) [], MTask.mk 1 none []], draining := false }
      = ({ queue := [MTask.mk 1 none []], draining := true }, [0], some 7) := rfl

/-- C3: evaluation at the failing input. A `303 See Other` response to a
GET request with a buffered body and a `Content-Type` header is downgraded
anyway — the body is cleared and `Content-Type` stripped — because the
source's 303 condition `method != GET || method != HEAD` is a tautology;
the claim says a 303 redirect of a GET request leaves them unchanged. -/
theorem c3_see_other_get_downgraded_eval :
    (httpRedirectFetch envC3 reqC3 respC3 ResponseTaint.basic 0).1.body = FetchBody.noBody
    ∧ containsKey (httpRedirectFetch envC3 reqC3 respC3 ResponseTaint.basic 0).1.headers
        CONTENT_TYPE = false
    ∧ (httpRedirectFetch envC3 reqC3 respC3 ResponseTaint.basic 0).1.method = Method.get := by
  exact ⟨by decide, by decide, by decide⟩

/-- C5: evaluation at the failing input. A GET file fetch of a 10-byte file
whose Range header's first satisfiable range is `0..=4` yields status 206,
the 5-byte slice, `range_requested = true` — but the `Content-Range` value
is `0-4/10`, not the `bytes 0-4/10` the claim (and RFC 7233) requires: the
format string omits the `bytes ` unit prefix. -/
theorem c5_content_range_missing_unit_eval :
    respC5.status = some 206
    ∧ respC5.body = some [10, 11, 12, 13, 14]
    ∧ respC5.rangeRequested = true
    ∧ getAll respC5.headers CONTENT_RANGE = ["0-4/10"]
    ∧ getAll respC5.headers CONTENT_RANGE ≠ ["bytes 0-4/10"] := by
  exact ⟨rfl, rfl, rfl, rfl, by decide⟩

/-- C8: whenever the abort signal's future wins the `select` against the
fetch future, `fetch_internal` rejects with the abort reason and never
yields a successful `Response`; the fetch future's value is not consulted
(it is dropped). -/
theorem c8_abort_first_rejects (env : Env) (req : Request) (reason : String) :
    fetchInternal env req (some reason) = Except.error (FetchErr.aborted reason)
    ∧ ∀ resp : Response, fetchInternal env req (some reason) ≠ Except.ok resp := by
  refine ⟨rfl, fun resp h => ?_⟩
  simp [fetchInternal] at h

/-- Every return path of `http_network_fetch` hands back the caller's
request untouched; the retry passes the same `req` along. -/
theorem httpNetworkFetchAux_fst (n : Nat) : ∀ (env : Env) (req : Request) (b : Bool),
    (httpNetworkFetchAux n env req b).1 = req := by
  induction n with
  | zero => intro env req b; rfl
  | succ n ih =>
    intro env req b
    simp only [httpNetworkFetchAux]
    split
    · rfl
    · split
      · rfl
      · split
        · rfl
        · split
          · exact ih env req true
          · rfl

/-- C9: `http_network_fetch` leaves the caller's `Request` unchanged — the
outgoing-header normalization (`Content-Length`, `Referer`, default
`User-Agent`, cache directives, `Accept-Encoding: identity`, `Host`) and
the conditional-header rewrite of the cache mode to `no-store` touch only
the per-attempt clone, across the single 421 retry included, so the
original request's header store, URL, cache mode and body are identical
before and after the call. -/
theorem c9_network_fetch_preserves_request (env : Env) (req : Request) (isNew : Bool) :
    (httpNetworkFetch env req isNew).1 = req
    ∧ (httpNetworkFetch env req isNew).1.headers = req.headers
    ∧ (httpNetworkFetch env req isNew).1.url = req.url
    ∧ (httpNetworkFetch env req isNew).1.cache = req.cache
    ∧ (httpNetworkFetch env req isNew).1.body = req.body := by
  have h : (httpNetworkFetch env req isNew).1 = req := by
    unfold httpNetworkFetch
    exact httpNetworkFetchAux_fst _ env req isNew
  exact ⟨h, by rw [h], by rw [h], by rw [h], by rw [h]⟩

theorem networkError_absent : errorReadsAbsent networkError :=
  fun _ => ⟨rfl, rfl, rfl, rfl, rfl⟩

theorem newFromBytes_absent (d : List Nat) (u : Url) (hs : HeaderMap) :
    errorReadsAbsent (Response.newFromBytes d u hs) := by
  intro h
  simp [Response.newFromBytes] at h

/-- The post-processing tail of `main_fetch` preserves the error-absence
invariant as long as the taint is not `Opaque` — which rules out the
range-reuse guard, the one branch that plants a URL on a network error. -/
theorem mainFetchTail_absent (req : Request) (r : Nat) (taint : ResponseTaint)
    (opq : Bool) (resp : Response) (ht : taint ≠ ResponseTaint.opaqueTaint)
    (hresp : errorReadsAbsent resp) :
    errorReadsAbsent (mainFetchTail req r taint opq resp).2 := by
  unfold errorReadsAbsent mainFetchTail
  dsimp only
  repeat' split
  all_goals intro h
  all_goals first
    | exact hresp h
    | simp_all [errorReadsAbsent]

theorem httpNetworkFetchAux_absent (n : Nat) : ∀ (env : Env) (req : Request) (b : Bool),
    errorReadsAbsent (httpNetworkFetchAux n env req b).2 := by
  induction n with
  | zero => intro env req b; exact networkError_absent
  | succ n ih =>
    intro env req b
    unfold errorReadsAbsent httpNetworkFetchAux
    dsimp only
    repeat' split
    all_goals intro h
    all_goals first
      | exact ih env req true h
      | exact networkError_absent h
      | simp_all [Response.fromRaw]

theorem httpRedirectFetchWith_absent (mf : Env → Request → Nat → Request × Response)
    (hmf : ∀ e q k, errorReadsAbsent (mf e q k).2)
    (env : Env) (req : Request) (resp : Response) (taint : ResponseTaint) (r : Nat)
    (hresp : errorReadsAbsent resp) :
    errorReadsAbsent (httpRedirectFetchWith mf env req resp taint r).2 := by
  unfold errorReadsAbsent httpRedirectFetchWith
  dsimp only
  repeat' split
  all_goals intro h
  all_goals first
    | exact hresp h
    | exact networkError_absent h
    | exact hmf env _ (r + 1) h

theorem httpFetchWith_absent (mf : Env → Request → Nat → Request × Response)
    (hmf : ∀ e q k, errorReadsAbsent (mf e q k).2)
    (env : Env) (req : Request) (taint : ResponseTaint) (r : Nat) :
    errorReadsAbsent (httpFetchWith mf env req taint r).2.1 := by
  unfold errorReadsAbsent httpFetchWith
  dsimp only
  repeat' split
  all_goals intro h
  all_goals first
    | exact httpNetworkFetchAux_absent 2 env req false h
    | exact networkError_absent h
    | exact httpRedirectFetchWith_absent mf hmf env _ _ taint r
        (httpNetworkFetchAux_absent 2 env req false) h

theorem schemeFetch_absent (env : Env) (s : String) (u : Url) :
    errorReadsAbsent (schemeFetch env s u) := by
  unfold schemeFetch
  repeat' split
  all_goals first
    | exact networkError_absent
    | apply newFromBytes_absent

theorem mainFetchAux_absent (n : Nat) : ∀ (env : Env) (req : Request) (r : Nat),
    errorReadsAbsent (mainFetchAux n env req r).2 := by
  induction n with
  | zero => intro env req r; exact networkError_absent
  | succ n ih =>
    intro env req r
    unfold mainFetchAux
    dsimp only
    repeat' split
    all_goals first
      | exact networkError_absent
      | exact mainFetchTail_absent _ _ _ _ _ (by decide) networkError_absent
      | exact mainFetchTail_absent _ _ _ _ _ (by decide) (schemeFetch_absent env _ _)
      | exact mainFetchTail_absent _ _ _ _ _ (by decide)
          (httpFetchWith_absent (mainFetchAux n) (fun e q k => ih e q k) env req _ r)

/-- C6: every `Response` the fetch pipeline produces with `kind = error`
reads as fully absent/empty — status, status text, final URL and body are
absent and the header store is empty, at every recursion depth. The
range-reuse guard, which would plant the response URL on its network
error, requires taint `Opaque`, and no arm of `main_fetch` in this
revision ever selects that taint (the default is basic and only `Cors` is
ever assigned), so no pipeline execution reaches it. -/
theorem c6_error_response_reads_absent (env : Env) (req : Request) (r : Nat)
    (h : (mainFetch env req r).2.kind = ResponseKind.error) :
    (mainFetch env req r).2.status = none
    ∧ (mainFetch env req r).2.statusText = none
    ∧ (mainFetch env req r).2.url = none
    ∧ (mainFetch env req r).2.body = none
    ∧ (mainFetch env req r).2.headers = [] :=
  mainFetchAux_absent (21 - r) env req r h

/-- C6 witness: a fetch of an unroutable scheme ends in an error-kind
response, and every caller-visible field of it reads absent/empty. -/
theorem c6_error_response_reads_absent_witness :
    (mainFetch envC6 reqC6 0).2.status = none
    ∧ (mainFetch envC6 reqC6 0).2.statusText = none
    ∧ (mainFetch envC6 reqC6 0).2.url = none
    ∧ (mainFetch envC6 reqC6 0).2.body = none
    ∧ (mainFetch envC6 reqC6 0).2.headers = [] :=
  c6_error_response_reads_absent envC6 reqC6 0 (by decide)

/-- C4: whenever `http_redirect_fetch` is entered with a redirect counter
that has reached 20 and a single `Location` header that resolves to an
http(s) URL, it returns the network error and the original request without
consulting the `main_fetch` continuation at all (the statement holds for
every continuation `mf`, so in particular for the tied-off recursion);
each hop that does recurse passes `redirections + 1`. -/
theorem c4_redirect_cap_returns_network_error
    (mf : Env → Request → Nat → Request × Response) (env : Env)
    (req : Request) (resp : Response) (taint : ResponseTaint) (r : Nat)
    (loc : HeaderValue) (parsed : Url)
    (hcap : 20 ≤ r)
    (hloc : getAll resp.headers LOCATION = [loc])
    (hparse : env.parseUrl resp.url loc = some parsed)
    (hscheme : parsed.scheme = "https" ∨ parsed.scheme = "http") :
    httpRedirectFetchWith mf env req resp taint r = (req, networkError) := by
  unfold httpRedirectFetchWith
  rw [hloc]
  dsimp only
  rw [hparse]
  dsimp only
  have hsch : (if parsed.fragment = none
      then { parsed with fragment := resp.url.bind Url.fragment }
      else parsed).scheme = parsed.scheme := by split <;> rfl
  rw [hsch]
  rcases hscheme with h | h <;> simp [h, hcap]

/-- C4 witness: at exactly 20 accumulated redirects, a 21st redirect
response (a 302 with a resolvable http `Location`) becomes a network
error. -/
theorem c4_redirect_cap_witness :
    httpRedirectFetchWith mfC4 envC4 reqC4 respC4 ResponseTaint.cors 20
      = (reqC4, networkError) :=
  c4_redirect_cap_returns_network_error mfC4 envC4 reqC4 respC4
    ResponseTaint.cors 20 "http://b.test/hop" urlC4
    (by decide) (by decide) rfl (Or.inr rfl)

theorem frStep_not_done (r : FileReader) (op : FileReaderOp)
    (h : r.state ≠ FileReaderState.done) :
    (fileReaderStep r op).state ≠ FileReaderState.done := by
  cases op <;> cases hs : r.state <;>
    simp_all [fileReaderStep, completeArrayBuffer, completeBinaryString,
      completeText, completeDataUrl, readAsArrayBuffer, readAsBinaryString,
      readAsText, readAsDataUrl, FileReaderState.validate, Except.toOption]

theorem foldl_frStep_not_done : ∀ (ops : List FileReaderOp) (r : FileReader),
    r.state ≠ FileReaderState.done →
    (ops.foldl fileReaderStep r).state ≠ FileReaderState.done := by
  intro ops
  induction ops with
  | nil => intro r h; exact h
  | cons op rest ih =>
    intro r h
    exact ih (fileReaderStep r op) (frStep_not_done r op h)

/-- C10: once any `readAs*` method succeeds the reader's state is
`Loading`; the asynchronous completions only write `result`, never the
state; every `readAs*` call on a reader in `Loading` state fails with the
invalid-state error; and no sequence of API operations ever puts a reader
in the `Done` state — so every later `readAs*` call on the same reader,
even after its first read fully completed, keeps failing. -/
theorem c10_read_state_never_done :
    (∀ r r' : FileReader,
        (readAsArrayBuffer r = Except.ok r' ∨ readAsBinaryString r = Except.ok r'
          ∨ readAsText r = Except.ok r' ∨ readAsDataUrl r = Except.ok r') →
        r'.state = FileReaderState.loading)
    ∧ (∀ (r : FileReader) (data : List Nat) (s : String),
        (completeArrayBuffer r data).state = r.state
        ∧ (completeBinaryString r data).state = r.state
        ∧ (completeText r s).state = r.state
        ∧ (completeDataUrl r s).state = r.state)
    ∧ (∀ r : FileReader, r.state = FileReaderState.loading →
        readAsArrayBuffer r = Except.error "Invalid State for File Reader"
        ∧ readAsBinaryString r = Except.error "Invalid State for File Reader"
        ∧ readAsText r = Except.error "Invalid State for File Reader"
        ∧ readAsDataUrl r = Except.error "Invalid State for File Reader")
    ∧ (∀ ops : List FileReaderOp, (fileReaderRun ops).state ≠ FileReaderState.done) := by
  refine ⟨?_, ?_, ?_, ?_⟩
  · intro r r' h
    rcases h with h | h | h | h <;>
      simp only [readAsArrayBuffer, readAsBinaryString, readAsText, readAsDataUrl,
        FileReaderState.validate] at h <;>
      cases hs : r.state <;> rw [hs] at h <;> simp at h <;> (subst h; rfl)
  · intro r data s
    exact ⟨rfl, rfl, rfl, rfl⟩
  · intro r h
    refine ⟨?_, ?_, ?_, ?_⟩ <;>
      simp [readAsArrayBuffer, readAsBinaryString, readAsText, readAsDataUrl,
        FileReaderState.validate, h]
  · intro ops
    exact foldl_frStep_not_done ops FileReader.default (by decide)

/-- C10 witness: a fresh reader's first read succeeds into `Loading`; after
its completion has delivered the result, a second read (of any flavour)
still fails with the invalid-state error, and the run never shows `Done`. -/
theorem c10_read_state_never_done_witness :
    readAsArrayBuffer FileReader.default
      = Except.ok { state := FileReaderState.loading, result := FileReaderResult.nullValue }
    ∧ ({ state := FileReaderState.loading, result := FileReaderResult.nullValue } : FileReader).state
      = FileReaderState.loading
    ∧ readAsText (completeArrayBuffer
        { state := FileReaderState.loading, result := FileReaderResult.nullValue } [1, 2])
      = Except.error "Invalid State for File Reader"
    ∧ (fileReaderRun [FileReaderOp.startArrayBuffer, FileReaderOp.finishArrayBuffer [1, 2],
        FileReaderOp.startText]).state ≠ FileReaderState.done := by
  refine ⟨rfl, ?_, ?_, ?_⟩
  · exact c10_read_state_never_done.1 FileReader.default _ (Or.inl rfl)
  · exact (c10_read_state_never_done.2.2.1 _ rfl).2.2.1
  · exact c10_read_state_never_done.2.2.2 _

theorem tasksSize_append (a b : List MTask) :
    tasksSize (a ++ b) = tasksSize a + tasksSize b := by
  induction a with
  | nil => simp [tasksSize]
  | cons t ts ih => simp [tasksSize, ih]; omega

theorem tasksSize_eq_zero (q : List MTask) (h : tasksSize q = 0) : q = [] := by
  cases q with
  | nil => rfl
  | cons t ts =>
    cases t with
    | mk i e spawns => simp [tasksSize, taskSize] at h

theorem errorFreeList_append (a b : List MTask) :
    errorFreeList (a ++ b) = (errorFreeList a && errorFreeList b) := by
  induction a with
  | nil => simp [errorFreeList]
  | cons t ts ih => simp [errorFreeList, ih, Bool.and_assoc]

theorem mem_taskIdsList (i : Nat) : ∀ l : List MTask,
    i ∈ taskIdsList l ↔ ∃ t ∈ l, i ∈ taskIds t := by
  intro l
  induction l with
  | nil => simp [taskIdsList]
  | cons t ts ih => simp [taskIdsList, ih]

/-- The ids the drain loop actually runs form a prefix of the spec's FIFO
order (an error stops the loop early but never reorders it). -/
theorem specFifo_loop_prefix (n : Nat) : ∀ q : List MTask, tasksSize q = n →
    ∃ rest, specFifoOrderAux n q = (runJobsLoopAux n q).2.1 ++ rest := by
  induction n with
  | zero => intro q h; exact ⟨[], rfl⟩
  | succ n ih =>
    intro q h
    rcases q with _ | ⟨⟨i, e, spawns⟩, rest⟩
    · exact ⟨[], rfl⟩
    · have hq' : tasksSize (rest ++ spawns) = n := by
        simp [tasksSize, taskSize, tasksSize_append] at h ⊢
        omega
      cases e with
      | some err =>
        exact ⟨specFifoOrderAux n (rest ++ spawns), by
          simp [specFifoOrderAux, runJobsLoopAux]⟩
      | none =>
        obtain ⟨r2, hr⟩ := ih (rest ++ spawns) hq'
        exact ⟨r2, by simp [specFifoOrderAux, runJobsLoopAux, hr]⟩

/-- An error-free queue drains completely, in exactly the spec's FIFO
order, with no error reported. -/
theorem loop_complete (n : Nat) : ∀ q : List MTask, tasksSize q = n →
    errorFreeList q = true →
    runJobsLoopAux n q = ([], specFifoOrderAux n q, none) := by
  induction n with
  | zero =>
    intro q h _
    rw [tasksSize_eq_zero q h]
    rfl
  | succ n ih =>
    intro q h hfree
    rcases q with _ | ⟨⟨i, e, spawns⟩, rest⟩
    · rfl
    · have hq' : tasksSize (rest ++ spawns) = n := by
        simp [tasksSize, taskSize, tasksSize_append] at h ⊢
        omega
      simp [errorFreeList, errorFree] at hfree
      obtain ⟨⟨he, hspawns⟩, hrest⟩ := hfree
      have hfree' : errorFreeList (rest ++ spawns) = true := by
        rw [errorFreeList_append, hrest, hspawns]
        rfl
      cases e with
      | some err => simp at he
      | none =>
        simp [runJobsLoopAux, specFifoOrderAux, ih (rest ++ spawns) hq' hfree']

/-- Every id of every task in the queue — the transitively spawned ones
included — appears in the spec's FIFO order of that queue. -/
theorem ids_in_specFifo (n : Nat) : ∀ q : List MTask, tasksSize q = n →
    ∀ t ∈ q, ∀ i ∈ taskIds t, i ∈ specFifoOrderAux n q := by
  induction n with
  | zero =>
    intro q h t ht
    rw [tasksSize_eq_zero q h] at ht
    simp at ht
  | succ n ih =>
    intro q h t ht i hi
    rcases q with _ | ⟨⟨i0, e, spawns⟩, rest⟩
    · simp at ht
    · have hq' : tasksSize (rest ++ spawns) = n := by
        simp [tasksSize, taskSize, tasksSize_append] at h ⊢
        omega
      simp only [specFifoOrderAux]
      rcases List.mem_cons.mp ht with rfl | htr
      · simp only [taskIds, List.mem_cons] at hi
        rcases hi with rfl | hi
        · exact List.mem_cons_self _ _
        · obtain ⟨s, hs, his⟩ := (mem_taskIdsList i spawns).mp hi
          exact List.mem_cons_of_mem _
            (ih (rest ++ spawns) hq' s (List.mem_append_right rest hs) i his)
      · exact List.mem_cons_of_mem _
          (ih (rest ++ spawns) hq' t (List.mem_append_left spawns htr) i hi)

/-- C7 counterexample: with the queue `[task 0 (throws 5, spawning task 1)]`
and `draining` clear, task 1 is enqueued during the drain but `run_jobs`
returns without running it (the trace is `[0]` and task 1 is still
queued), so the claim that a task enqueued during an ongoing drain always
runs before that `run_jobs` invocation returns is false as stated. -/
theorem c7_spawned_task_unrun_on_error :
    (runJobs stC7).2.1 = [0]
    ∧ (runJobs stC7).1.queue = [MTask.mk 1 none []]
    ∧ ¬ (1 ∈ (runJobs stC7).2.1) := by
  refine ⟨rfl, rfl, by decide⟩

/-- C7 (amended): a nested `run_jobs` call during a drain returns
immediately without running a task; the tasks that do run always run in
strict FIFO order of enqueue (the trace is a prefix of the FIFO order);
and provided no task of the drain raises an error, the drain runs exactly
the FIFO order — in particular every task enqueued by a running task
during the drain runs before `run_jobs` returns — and ends with an empty
queue and the `draining` flag clear. -/
theorem c7_fifo_order_amended (st : MicrotaskQueue) :
    (st.draining = true → runJobs st = (st, [], none))
    ∧ (∃ rest, specFifoOrder st.queue = (runJobs st).2.1 ++ rest)
    ∧ (st.draining = false → errorFreeList st.queue = true →
        (runJobs st).2.1 = specFifoOrder st.queue
        ∧ (runJobs st).1.queue = [] ∧ (runJobs st).1.draining = false
        ∧ ∀ t ∈ st.queue, ∀ i ∈ taskIds t, i ∈ (runJobs st).2.1) := by
  refine ⟨?_, ?_, ?_⟩
  · intro h
    unfold runJobs
    simp [h]
  · by_cases hd : st.draining
    · exact ⟨specFifoOrder st.queue, by unfold runJobs; simp [hd]⟩
    · unfold runJobs
      simp only [hd, Bool.false_eq_true, if_false]
      cases hres : (runJobsLoop st.queue).2.2 <;> simp only [hres] <;>
        exact specFifo_loop_prefix (tasksSize st.queue) st.queue rfl
  · intro hd hfree
    have hc : runJobsLoop st.queue = ([], specFifoOrder st.queue, none) :=
      loop_complete (tasksSize st.queue) st.queue rfl hfree
    unfold runJobs
    rw [hc]
    simp only [hd, Bool.false_eq_true, if_false]
    refine ⟨by trivial, by trivial, by trivial, ?_⟩
    intro t ht i hi
    exact ids_in_specFifo (tasksSize st.queue) st.queue rfl t ht i hi

/-- C7 witness: an error-free drain in which task 0 spawns task 2
mid-drain runs exactly the FIFO order `[0, 1, 2]` and empties the queue. -/
theorem c7_fifo_order_amended_witness :
    (runJobs stC7w).2.1 = specFifoOrder stC7w.queue
    ∧ (runJobs stC7w).1.queue = [] := by
  have h := (c7_fifo_order_amended stC7w).2.2 rfl rfl
  exact ⟨h.1, h.2.1⟩
